import Mathlib

/-!
Verification of the voice-activity segmentation core of vspeech
(src/vspeech/recording.py): the loudness measurement `get_dbfs`, the
interval-based segmentation loop `recording_task_loop`, and the worker
lifecycle `recording_worker`.

Modelling conventions:
* PCM byte strings are modelled as lists of decoded signed samples
  (`List ℤ`); concatenation of byte strings becomes list append.
* Seconds and configuration values (`record_interval_sec`,
  `silence_threshold`, `max_recording_sec`) are exact rationals; Python
  floats are rationals, and none of the comparisons in the loop is
  float-rounding-sensitive for the inputs considered here.
* The dBFS value is `WithBot ℝ`, with `⊥` playing the role of
  `float("-inf")`.
* The loudness comparison `amp > silence_threshold` is decided by an exact
  rational criterion (proved equivalent below), which keeps the whole
  segmentation loop computable even though `get_dbfs` itself is
  real-valued.
-/

namespace VSpeech

set_option maxRecDepth 100000

attribute [local semireducible] Rat.add Rat.mul Rat.inv

/-- Structurally recursive integer square root (`isqrt (n/4)` doubling step),
kernel-reducible so that concrete runs can be settled by `decide`; proved
equal to `Nat.sqrt` in `isqrt_eq_sqrt` below. The first argument is fuel,
always called with `fuel = n`. -/
def isqrtAux : ℕ → ℕ → ℕ
  | 0, _ => 0
  | fuel + 1, n =>
    if n ≤ 1 then n
    else
      let r := 2 * isqrtAux fuel (n / 4)
      if (r + 1) * (r + 1) ≤ n then r + 1 else r

/-- Floor of the square root of a natural number (see `isqrt_eq_sqrt`). -/
def isqrt (n : ℕ) : ℕ := isqrtAux n n

/-- Model of `audioop.rms(fragment, width)` from CPython: the floor of the
square root of the mean of the squared samples, and `0` on empty input.
(The C code computes `(int)sqrt(sum_squares / len)`; since
`⌊√x⌋ = ⌊√⌊x⌋⌋` for `x ≥ 0`, floor division before the integer square root
is exact.) -/
def audioop_rms (fragment : List ℤ) : ℕ :=
  if fragment.length = 0 then 0
  else isqrt ((fragment.map (fun s => s.natAbs ^ 2)).sum / fragment.length)

/-- Model of `get_dbfs(interval_frames, sample_width)` (recording.py lines
57-62): `float("-inf")` when the RMS is zero, otherwise
`20 * log(rms / max_possible_val, 10)` with
`max_possible_val = 2 ** (sample_width * 8) / 2`. -/
noncomputable def get_dbfs (interval_frames : List ℤ) (sample_width : ℕ) : WithBot ℝ :=
  if audioop_rms interval_frames = 0 then (⊥ : WithBot ℝ)
  else ((20 * Real.logb 10
      ((audioop_rms interval_frames : ℝ) / (2 ^ (sample_width * 8) / 2)) : ℝ) : WithBot ℝ)

/-- The loudness comparison performed by the segmentation loop, decided by
exact rational arithmetic: for a rational threshold `q`,
`q < 20 * log10(rms / max)` iff `rms ≠ 0` and
`10 ^ (q/20).num < (rms / max) ^ (q/20).den`. -/
instance (priority := 10000) decThresholdLtDbfs (q : ℚ) (frames : List ℤ) (w : ℕ) :
    Decidable (((q : ℝ) : WithBot ℝ) < get_dbfs frames w) :=
  decidable_of_iff
    (audioop_rms frames ≠ 0 ∧
      (10 : ℚ) ^ (q / 20).num <
        ((audioop_rms frames : ℚ) / (2 ^ (w * 8) / 2)) ^ (q / 20).den)
    (by
      by_cases hr : audioop_rms frames = 0
      · simp [get_dbfs, hr]
      · rw [get_dbfs, if_neg hr, WithBot.coe_lt_coe]
        have hrpos : (0 : ℝ) < (audioop_rms frames : ℝ) := by
          exact_mod_cast Nat.pos_of_ne_zero hr
        have hm : (0 : ℝ) < 2 ^ (w * 8) / 2 := by positivity
        have hx : (0 : ℝ) < (audioop_rms frames : ℝ) / (2 ^ (w * 8) / 2) :=
          div_pos hrpos hm
        have hcast : ((q / 20 : ℚ) : ℝ) = (q : ℝ) / 20 := by push_cast; ring
        have h1 : (q : ℝ) < 20 * Real.logb 10
            ((audioop_rms frames : ℝ) / (2 ^ (w * 8) / 2)) ↔
            ((q / 20 : ℚ) : ℝ) < Real.logb 10
              ((audioop_rms frames : ℝ) / (2 ^ (w * 8) / 2)) := by
          rw [hcast, div_lt_iff₀ (by norm_num : (0 : ℝ) < 20)]
          constructor <;> intro h <;> linarith
        have h2 := Real.lt_logb_iff_rpow_lt (by norm_num : (1 : ℝ) < 10) hx
          (x := ((q / 20 : ℚ) : ℝ))
        have hden : ((q / 20).den : ℕ) ≠ 0 := (q / 20).den_nz
        have h3 : (10 : ℝ) ^ (((q / 20 : ℚ)) : ℝ) <
            (audioop_rms frames : ℝ) / (2 ^ (w * 8) / 2) ↔
            ((10 : ℝ) ^ (((q / 20 : ℚ)) : ℝ)) ^ ((q / 20).den : ℕ) <
              ((audioop_rms frames : ℝ) / (2 ^ (w * 8) / 2)) ^ ((q / 20).den : ℕ) :=
          (pow_lt_pow_iff_left₀
            (Real.rpow_pos_of_pos (by norm_num) _).le hx.le hden).symm
        have h4 : ((10 : ℝ) ^ (((q / 20 : ℚ)) : ℝ)) ^ ((q / 20).den : ℕ) =
            (10 : ℝ) ^ ((q / 20).num : ℤ) := by
          rw [← Real.rpow_natCast ((10 : ℝ) ^ (((q / 20 : ℚ)) : ℝ)) ((q / 20).den),
            ← Real.rpow_mul (by norm_num : (0 : ℝ) ≤ 10),
            ← Real.rpow_intCast]
          congr 1
          rw [Rat.cast_def]
          have : ((q / 20).den : ℝ) ≠ 0 := by exact_mod_cast hden
          field_simp
        rw [h1, h2, h3, h4]
        have h5 : ((10 : ℚ) ^ (q / 20).num <
            ((audioop_rms frames : ℚ) / (2 ^ (w * 8) / 2)) ^ (q / 20).den) ↔
            (10 : ℝ) ^ ((q / 20).num : ℤ) <
              ((audioop_rms frames : ℝ) / (2 ^ (w * 8) / 2)) ^ ((q / 20).den : ℕ) := by
          rw [show (10 : ℝ) ^ ((q / 20).num : ℤ) =
              (((10 : ℚ) ^ (q / 20).num : ℚ) : ℝ) by push_cast; ring,
            show ((audioop_rms frames : ℝ) / (2 ^ (w * 8) / 2)) ^ ((q / 20).den : ℕ) =
              ((((audioop_rms frames : ℚ) / (2 ^ (w * 8) / 2)) ^ (q / 20).den : ℚ) : ℝ) by
                push_cast; ring]
          exact Rat.cast_lt.symm
        rw [h5]
        simp [hr])

/-- The configuration values consumed by the segmentation loop
(`RecordingConfig` fields used in recording.py): `chunk` frames per device
read, sample `rate`, the interval length, the silence threshold in dBFS and
the duration cap, the latter three being Python floats (hence rationals). -/
structure RecordingConfig where
  chunk : ℕ
  rate : ℕ
  record_interval_sec : ℚ
  silence_threshold : ℚ
  max_recording_sec : ℚ

/-- The `status` local of `recording_task_loop`: one of the strings
`"waiting"`, `"speaking"`, `"stopped"`. -/
inductive Status
  | waiting
  | speaking
  | stopped
deriving DecidableEq

/-- The mutable locals of `recording_task_loop` (recording.py lines 68-73). -/
structure LoopState where
  interval_frame_count : ℕ
  interval_frames : List ℤ
  speaking_frames : List ℤ
  last_interval_frames : List ℤ
  total_speaking_seconds : ℚ
  status : Status
deriving DecidableEq

/-- The initial values of the loop locals (recording.py lines 68-73). -/
def initLoopState : LoopState :=
  { interval_frame_count := 0
    interval_frames := []
    speaking_frames := []
    last_interval_frames := []
    total_speaking_seconds := 0
    status := Status.waiting }

/-- One iteration of the `while stream.is_active()` body of
`recording_task_loop` (recording.py lines 74-104) after a read returning
`in_data`: accumulate the chunk into the current interval and, once the
accumulated frame count reaches `rate * record_interval_sec`, run the
per-interval decision. Returns the updated locals and the frames yielded by
this iteration, if any. The code recomputes `approx_max_amp =
get_dbfs(interval_frames, sample_width)` on every chunk but only reads it
inside the interval-complete branch, so it is evaluated there. In the
emission branch the code clears `interval_frames` before the trailing
`last_interval_frames = interval_frames` assignment, so the lookback
becomes empty there. -/
def chunkStep (config : RecordingConfig) (sample_width : ℕ) (st : LoopState)
    (in_data : List ℤ) : LoopState × Option (List ℤ) :=
  let interval_frame_count := st.interval_frame_count + config.chunk
  let interval_frames := st.interval_frames ++ in_data
  if (config.rate : ℚ) * config.record_interval_sec ≤ (interval_frame_count : ℚ) then
    let speaking : Bool :=
      decide (((config.silence_threshold : ℝ) : WithBot ℝ) <
        get_dbfs interval_frames sample_width)
    if st.status = Status.waiting ∧ speaking = true then
      ({ interval_frame_count := 0
         interval_frames := []
         speaking_frames := st.speaking_frames ++ st.last_interval_frames ++ interval_frames
         last_interval_frames := interval_frames
         total_speaking_seconds := st.total_speaking_seconds
         status := Status.speaking }, none)
    else if st.status = Status.speaking then
      let speaking_frames := st.speaking_frames ++ interval_frames
      let total_speaking_seconds :=
        st.total_speaking_seconds + config.record_interval_sec
      if speaking = false ∨ config.max_recording_sec < total_speaking_seconds then
        ({ interval_frame_count := 0
           interval_frames := []
           speaking_frames := speaking_frames
           last_interval_frames := interval_frames
           total_speaking_seconds := total_speaking_seconds
           status := Status.stopped }, none)
      else
        ({ interval_frame_count := 0
           interval_frames := []
           speaking_frames := speaking_frames
           last_interval_frames := interval_frames
           total_speaking_seconds := total_speaking_seconds
           status := Status.speaking }, none)
    else if st.status = Status.stopped then
      let speaking_frames := st.speaking_frames ++ interval_frames
      let total_speaking_seconds :=
        st.total_speaking_seconds + config.record_interval_sec
      if speaking = false ∨ config.max_recording_sec < total_speaking_seconds then
        ({ interval_frame_count := 0
           interval_frames := []
           speaking_frames := []
           last_interval_frames := []
           total_speaking_seconds := total_speaking_seconds
           status := Status.waiting }, some speaking_frames)
      else if speaking = true then
        ({ interval_frame_count := 0
           interval_frames := []
           speaking_frames := speaking_frames
           last_interval_frames := interval_frames
           total_speaking_seconds := total_speaking_seconds
           status := Status.speaking }, none)
      else
        ({ interval_frame_count := 0
           interval_frames := []
           speaking_frames := speaking_frames
           last_interval_frames := interval_frames
           total_speaking_seconds := total_speaking_seconds
           status := Status.stopped }, none)
    else
      ({ interval_frame_count := 0
         interval_frames := []
         speaking_frames := st.speaking_frames
         last_interval_frames := interval_frames
         total_speaking_seconds := st.total_speaking_seconds
         status := st.status }, none)
  else
    ({ st with
       interval_frame_count := interval_frame_count
       interval_frames := interval_frames }, none)

/-- The segmentation loop `recording_task_loop` run over a finite stream of
device reads (the loop body is `chunkStep`; the stream ending models
`stream.is_active()` turning false). Returns the final locals and the list
of yielded utterances, in order. -/
def recording_task_loop (config : RecordingConfig) (sample_width : ℕ) :
    LoopState → List (List ℤ) → LoopState × List (List ℤ)
  | st, [] => (st, [])
  | st, in_data :: rest =>
    let p := chunkStep config sample_width st in_data
    let r := recording_task_loop config sample_width p.1 rest
    (r.1, p.2.toList ++ r.2)

/-- Errors that can escape the worker's iteration: `asyncio.CancelledError`
and `asyncio.QueueFull`. -/
inductive WErr
  | cancelled
  | queueFull
deriving DecidableEq

/-- Observable effect state of one `recording_worker` session: number of
`stream.close()` calls, current queue size, utterances published to the
output queue, and number of device reads performed. -/
structure WState where
  closes : ℕ
  queueLen : ℕ
  published : List (List ℤ)
  reads : ℕ
deriving DecidableEq

/-- Model of `asyncio.Queue.put_nowait`: with `maxsize = 0` the queue is
unbounded; otherwise the put raises `QueueFull` when the queue is full. -/
def put_nowait (maxsize : ℕ) (frames : List ℤ) (s : WState) :
    Except WErr Unit × WState :=
  if maxsize = 0 ∨ s.queueLen < maxsize then
    (Except.ok (),
      { s with queueLen := s.queueLen + 1, published := s.published ++ [frames] })
  else (Except.error WErr.queueFull, s)

/-- The `async for frames in recording_task_loop(...)` loop of
`recording_worker` (recording.py lines 112-131) with its body: each device
read is counted (a read raises `CancelledError` when the cancellation is
delivered at that read, modelled by `cancel_at_read` matching the read
counter); at each yielded utterance the resume gate is consulted (`resume_is_set
i` is the gate at the i-th yield) — if cleared the loop breaks (returning
`true` = paused), otherwise the utterance is published with `put_nowait`,
whose exception propagates out of the loop. Returns `false` when the stream
ends. -/
def recording_worker_loop (config : RecordingConfig) (sample_width : ℕ)
    (maxsize : ℕ) (resume_is_set : ℕ → Bool) (cancel_at_read : Option ℕ) :
    List (List ℤ) → LoopState → ℕ → WState → Except WErr Bool × WState
  | [], _, _, s => (Except.ok false, s)
  | in_data :: rest, st, yi, s =>
    if cancel_at_read = some s.reads then (Except.error WErr.cancelled, s)
    else
      let s1 := { s with reads := s.reads + 1 }
      let p := chunkStep config sample_width st in_data
      match p.2 with
      | none =>
        recording_worker_loop config sample_width maxsize resume_is_set
          cancel_at_read rest p.1 yi s1
      | some frames =>
        if resume_is_set yi = false then (Except.ok true, s1)
        else
          match put_nowait maxsize frames s1 with
          | (Except.ok _, s2) =>
            recording_worker_loop config sample_width maxsize resume_is_set
              cancel_at_read rest p.1 (yi + 1) s2
          | (Except.error e, s2) => (Except.error e, s2)

/-- One pass of the `while True` body of `recording_worker` (recording.py
lines 107-141): run the async-for under
`try ... except CancelledError: stream.close(); raise` (any other exception
propagates unhandled, skipping the close), then `stream.close()`, then
`await context.resume.wait()` under
`try ... except CancelledError: raise` (no further close). `cancel_at_wait`
models cancellation delivered while suspended on the gate wait. -/
def recording_worker_pass (config : RecordingConfig) (sample_width : ℕ)
    (maxsize : ℕ) (resume_is_set : ℕ → Bool) (cancel_at_read : Option ℕ)
    (cancel_at_wait : Bool) (chunks : List (List ℤ)) (s0 : WState) :
    Except WErr Bool × WState :=
  match recording_worker_loop config sample_width maxsize resume_is_set
      cancel_at_read chunks initLoopState 0 s0 with
  | (Except.error WErr.cancelled, s) =>
    (Except.error WErr.cancelled, { s with closes := s.closes + 1 })
  | (Except.error e, s) => (Except.error e, s)
  | (Except.ok paused, s) =>
    let s1 := { s with closes := s.closes + 1 }
    if cancel_at_wait then (Except.error WErr.cancelled, s1)
    else (Except.ok paused, s1)

/-- Number of device reads the segmentation loop performs up to and
including the read on which it first yields an utterance (all reads if it
never yields). -/
def readsUntilFirstYield (config : RecordingConfig) (sample_width : ℕ) :
    List (List ℤ) → LoopState → ℕ
  | [], _ => 0
  | in_data :: rest, st =>
    let p := chunkStep config sample_width st in_data
    match p.2 with
    | none => 1 + readsUntilFirstYield config sample_width rest p.1
    | some _ => 1

/-- `slicesThen us tail stream` says the lists `us` occur inside `stream`
in order as pairwise disjoint contiguous slices, followed (after the last
slice) by `tail` as a suffix of `stream`. With `tail = []` this is the
formal statement that the `us` occupy pairwise disjoint source-byte ranges
of `stream`, in order. -/
def slicesThen : List (List ℤ) → List ℤ → List ℤ → Prop
  | [], tail, stream => ∃ a, stream = a ++ tail
  | u :: us, tail, stream => ∃ a rest, stream = a ++ u ++ rest ∧ slicesThen us tail rest

/-- Configuration of the end-to-end scenario: rate 16000, 0.1 s intervals
(1600 samples), threshold -40 dBFS, 5 s cap; one read per interval. -/
def c1Config : RecordingConfig :=
  { chunk := 1600, rate := 16000, record_interval_sec := 1 / 10
    silence_threshold := -40, max_recording_sec := 5 }

/-- A 0.1 s interval of constant 16-bit samples of value 1000: RMS 1000,
loudness 20 * log10(1000 / 32768) ≈ -30.3 dBFS, strictly above -40. -/
def loudChunk : List ℤ := List.replicate 1600 1000

/-- A 0.1 s interval of zero samples: RMS 0, loudness -inf. -/
def quietChunk : List ℤ := List.replicate 1600 0

/-- Start state of the end-to-end scenario: `Waiting`, with one completed
below-threshold interval held as the rolling lookback. -/
def c1Init : LoopState :=
  { interval_frame_count := 0
    interval_frames := []
    speaking_frames := []
    last_interval_frames := quietChunk
    total_speaking_seconds := 0
    status := Status.waiting }

/-- The scenario input: 3 full intervals strictly above threshold, then 2
full intervals at or below it. -/
def c1Chunks : List (List ℤ) := [loudChunk, loudChunk, loudChunk, quietChunk, quietChunk]

/-- A small configuration for concrete traces: one sample per read, one
sample per interval, 1 s intervals, threshold -40 dBFS, 2 s cap. -/
def smallConfig : RecordingConfig :=
  { chunk := 1, rate := 1, record_interval_sec := 1
    silence_threshold := -40, max_recording_sec := 2 }

/-- Like `smallConfig` but with a cap (100 s) that the traces never reach. -/
def smallConfigNoCap : RecordingConfig :=
  { chunk := 1, rate := 1, record_interval_sec := 1
    silence_threshold := -40, max_recording_sec := 100 }

/-- A one-sample interval of value 1000 (RMS 1000, above -40 dBFS). -/
def loud1 : List ℤ := [1000]

/-- A one-sample interval of value 0 (RMS 0, loudness -inf). -/
def quiet1 : List ℤ := [0]

instance {ε α : Type} [DecidableEq ε] [DecidableEq α] : DecidableEq (Except ε α) :=
  fun a b =>
    match a, b with
    | .error e, .error f =>
      if h : e = f then .isTrue (h ▸ rfl) else .isFalse fun hh => h (Except.error.inj hh)
    | .error _, .ok _ => .isFalse fun hh => Except.noConfusion hh
    | .ok _, .error _ => .isFalse fun hh => Except.noConfusion hh
    | .ok x, .ok y =>
      if h : x = y then .isTrue (h ▸ rfl) else .isFalse fun hh => h (Except.ok.inj hh)

theorem isqrtAux_le_and_lt :
    ∀ fuel n : ℕ, n ≤ fuel →
      (isqrtAux fuel n) ^ 2 ≤ n ∧ n < (isqrtAux fuel n + 1) ^ 2 := by
  intro fuel
  induction fuel with
  | zero =>
    intro n hn
    have hn0 : n = 0 := Nat.le_zero.1 hn
    subst hn0
    simp [isqrtAux]
  | succ f ih =>
    intro n hn
    by_cases h1 : n ≤ 1
    · have he : isqrtAux (f + 1) n = n := by simp [isqrtAux, h1]
      rw [he]
      interval_cases n
      · simp
      · simp
    · push_neg at h1
      have hq : n / 4 ≤ f := by
        have := Nat.div_lt_self (by omega : 0 < n) (by omega : 1 < 4)
        omega
      obtain ⟨hr1, hr2⟩ := ih (n / 4) hq
      have hd : 4 * (n / 4) + n % 4 = n := Nat.div_add_mod n 4
      have hm : n % 4 < 4 := Nat.mod_lt _ (by omega)
      by_cases h2 : (2 * isqrtAux f (n / 4) + 1) * (2 * isqrtAux f (n / 4) + 1) ≤ n
      · have he : isqrtAux (f + 1) n = 2 * isqrtAux f (n / 4) + 1 := by
          simp only [isqrtAux]
          rw [if_neg (by omega : ¬ n ≤ 1), if_pos h2]
        rw [he]
        constructor
        · calc (2 * isqrtAux f (n / 4) + 1) ^ 2
              = (2 * isqrtAux f (n / 4) + 1) * (2 * isqrtAux f (n / 4) + 1) := by ring
            _ ≤ n := h2
        · have h5 : n / 4 + 1 ≤ (isqrtAux f (n / 4) + 1) ^ 2 := hr2
          calc n < 4 * (n / 4 + 1) := by omega
            _ ≤ 4 * ((isqrtAux f (n / 4) + 1) ^ 2) := by
                exact Nat.mul_le_mul_left 4 h5
            _ = (2 * isqrtAux f (n / 4) + 1 + 1) ^ 2 := by ring
      · have he : isqrtAux (f + 1) n = 2 * isqrtAux f (n / 4) := by
          simp only [isqrtAux]
          rw [if_neg (by omega : ¬ n ≤ 1), if_neg h2]
        rw [he]
        constructor
        · calc (2 * isqrtAux f (n / 4)) ^ 2 = 4 * (isqrtAux f (n / 4)) ^ 2 := by ring
            _ ≤ 4 * (n / 4) := Nat.mul_le_mul_left 4 hr1
            _ ≤ n := by omega
        · have := Nat.lt_of_not_le h2
          calc n < (2 * isqrtAux f (n / 4) + 1) * (2 * isqrtAux f (n / 4) + 1) := this
            _ = (2 * isqrtAux f (n / 4) + 1) ^ 2 := by ring

/-- The structural integer square root agrees with `Nat.sqrt`, so
`audioop_rms` is faithful to `(int)sqrt(sum_squares / len)`. -/
theorem isqrt_eq_sqrt (n : ℕ) : isqrt n = Nat.sqrt n := by
  obtain ⟨h1, h2⟩ := isqrtAux_le_and_lt n n le_rfl
  have ha : isqrt n ≤ Nat.sqrt n := Nat.le_sqrt'.2 h1
  have hb : Nat.sqrt n < isqrt n + 1 := Nat.sqrt_lt'.2 h2
  omega

theorem recording_task_loop_nil (config : RecordingConfig) (w : ℕ) (st : LoopState) :
    recording_task_loop config w st [] = (st, []) := rfl

theorem recording_task_loop_cons (config : RecordingConfig) (w : ℕ) (st : LoopState)
    (c : List ℤ) (rest : List (List ℤ)) :
    recording_task_loop config w st (c :: rest) =
      ((recording_task_loop config w (chunkStep config w st c).1 rest).1,
        (chunkStep config w st c).2.toList ++
          (recording_task_loop config w (chunkStep config w st c).1 rest).2) := rfl

theorem recording_task_loop_append (config : RecordingConfig) (w : ℕ) (st : LoopState)
    (xs ys : List (List ℤ)) :
    recording_task_loop config w st (xs ++ ys) =
      ((recording_task_loop config w (recording_task_loop config w st xs).1 ys).1,
        (recording_task_loop config w st xs).2 ++
          (recording_task_loop config w (recording_task_loop config w st xs).1 ys).2) := by
  induction xs generalizing st with
  | nil => simp [recording_task_loop]
  | cons c cs ih =>
    simp [recording_task_loop, ih, List.append_assoc]

theorem chunkStep_incomplete (config : RecordingConfig) (w : ℕ) (st : LoopState)
    (c : List ℤ)
    (hfull : ¬ (config.rate : ℚ) * config.record_interval_sec ≤
      ((st.interval_frame_count + config.chunk : ℕ) : ℚ)) :
    chunkStep config w st c =
      ({ st with
         interval_frame_count := st.interval_frame_count + config.chunk
         interval_frames := st.interval_frames ++ c }, none) := by
  simp only [chunkStep]
  rw [if_neg hfull]

theorem chunkStep_waiting_loud (config : RecordingConfig) (w : ℕ) (st : LoopState)
    (c : List ℤ)
    (hfull : (config.rate : ℚ) * config.record_interval_sec ≤
      ((st.interval_frame_count + config.chunk : ℕ) : ℚ))
    (hst : st.status = Status.waiting)
    (hl : ((config.silence_threshold : ℝ) : WithBot ℝ) <
      get_dbfs (st.interval_frames ++ c) w) :
    chunkStep config w st c =
      ({ interval_frame_count := 0
         interval_frames := []
         speaking_frames := st.speaking_frames ++ st.last_interval_frames ++
           (st.interval_frames ++ c)
         last_interval_frames := st.interval_frames ++ c
         total_speaking_seconds := st.total_speaking_seconds
         status := Status.speaking }, none) := by
  simp only [chunkStep]
  rw [if_pos hfull, if_pos ⟨hst, decide_eq_true hl⟩]

theorem chunkStep_waiting_quiet (config : RecordingConfig) (w : ℕ) (st : LoopState)
    (c : List ℤ)
    (hfull : (config.rate : ℚ) * config.record_interval_sec ≤
      ((st.interval_frame_count + config.chunk : ℕ) : ℚ))
    (hst : st.status = Status.waiting)
    (hq : ¬ ((config.silence_threshold : ℝ) : WithBot ℝ) <
      get_dbfs (st.interval_frames ++ c) w) :
    chunkStep config w st c =
      ({ interval_frame_count := 0
         interval_frames := []
         speaking_frames := st.speaking_frames
         last_interval_frames := st.interval_frames ++ c
         total_speaking_seconds := st.total_speaking_seconds
         status := st.status }, none) := by
  simp only [chunkStep]
  rw [if_pos hfull, if_neg (by simp [decide_eq_false hq]),
    if_neg (by simp [hst]), if_neg (by simp [hst])]

theorem chunkStep_speaking_continue (config : RecordingConfig) (w : ℕ) (st : LoopState)
    (c : List ℤ)
    (hfull : (config.rate : ℚ) * config.record_interval_sec ≤
      ((st.interval_frame_count + config.chunk : ℕ) : ℚ))
    (hst : st.status = Status.speaking)
    (hl : ((config.silence_threshold : ℝ) : WithBot ℝ) <
      get_dbfs (st.interval_frames ++ c) w)
    (hcap : ¬ config.max_recording_sec <
      st.total_speaking_seconds + config.record_interval_sec) :
    chunkStep config w st c =
      ({ interval_frame_count := 0
         interval_frames := []
         speaking_frames := st.speaking_frames ++ (st.interval_frames ++ c)
         last_interval_frames := st.interval_frames ++ c
         total_speaking_seconds := st.total_speaking_seconds + config.record_interval_sec
         status := Status.speaking }, none) := by
  simp only [chunkStep]
  rw [if_pos hfull, if_neg (by simp [hst]), if_pos hst,
    if_neg (by simp [decide_eq_true hl, hcap])]

theorem chunkStep_speaking_stop (config : RecordingConfig) (w : ℕ) (st : LoopState)
    (c : List ℤ)
    (hfull : (config.rate : ℚ) * config.record_interval_sec ≤
      ((st.interval_frame_count + config.chunk : ℕ) : ℚ))
    (hst : st.status = Status.speaking)
    (h : ¬ ((config.silence_threshold : ℝ) : WithBot ℝ) <
        get_dbfs (st.interval_frames ++ c) w ∨
      config.max_recording_sec <
        st.total_speaking_seconds + config.record_interval_sec) :
    chunkStep config w st c =
      ({ interval_frame_count := 0
         interval_frames := []
         speaking_frames := st.speaking_frames ++ (st.interval_frames ++ c)
         last_interval_frames := st.interval_frames ++ c
         total_speaking_seconds := st.total_speaking_seconds + config.record_interval_sec
         status := Status.stopped }, none) := by
  simp only [chunkStep]
  rw [if_pos hfull, if_neg (by simp [hst]), if_pos hst]
  rcases h with h | h
  · rw [if_pos (Or.inl (decide_eq_false h))]
  · rw [if_pos (Or.inr h)]

theorem chunkStep_stopped_emit (config : RecordingConfig) (w : ℕ) (st : LoopState)
    (c : List ℤ)
    (hfull : (config.rate : ℚ) * config.record_interval_sec ≤
      ((st.interval_frame_count + config.chunk : ℕ) : ℚ))
    (hst : st.status = Status.stopped)
    (h : ¬ ((config.silence_threshold : ℝ) : WithBot ℝ) <
        get_dbfs (st.interval_frames ++ c) w ∨
      config.max_recording_sec <
        st.total_speaking_seconds + config.record_interval_sec) :
    chunkStep config w st c =
      ({ interval_frame_count := 0
         interval_frames := []
         speaking_frames := []
         last_interval_frames := []
         total_speaking_seconds := st.total_speaking_seconds + config.record_interval_sec
         status := Status.waiting },
       some (st.speaking_frames ++ (st.interval_frames ++ c))) := by
  simp only [chunkStep]
  rw [if_pos hfull, if_neg (by simp [hst]), if_neg (by simp [hst]), if_pos hst]
  rcases h with h | h
  · rw [if_pos (Or.inl (decide_eq_false h))]
  · rw [if_pos (Or.inr h)]

theorem chunkStep_stopped_recover (config : RecordingConfig) (w : ℕ) (st : LoopState)
    (c : List ℤ)
    (hfull : (config.rate : ℚ) * config.record_interval_sec ≤
      ((st.interval_frame_count + config.chunk : ℕ) : ℚ))
    (hst : st.status = Status.stopped)
    (hl : ((config.silence_threshold : ℝ) : WithBot ℝ) <
      get_dbfs (st.interval_frames ++ c) w)
    (hcap : ¬ config.max_recording_sec <
      st.total_speaking_seconds + config.record_interval_sec) :
    chunkStep config w st c =
      ({ interval_frame_count := 0
         interval_frames := []
         speaking_frames := st.speaking_frames ++ (st.interval_frames ++ c)
         last_interval_frames := st.interval_frames ++ c
         total_speaking_seconds := st.total_speaking_seconds + config.record_interval_sec
         status := Status.speaking }, none) := by
  simp only [chunkStep]
  rw [if_pos hfull, if_neg (by simp [hst]), if_neg (by simp [hst]), if_pos hst,
    if_neg (by simp [decide_eq_true hl, hcap]), if_pos (decide_eq_true hl)]

lemma loudChunk_above : (((-40 : ℚ) : ℝ) : WithBot ℝ) < get_dbfs loudChunk 2 := by decide

lemma quietChunk_below : ¬ (((-40 : ℚ) : ℝ) : WithBot ℝ) < get_dbfs quietChunk 2 := by decide

lemma c1_run_out :
    (recording_task_loop c1Config 2 c1Init c1Chunks).2 =
      [quietChunk ++ loudChunk ++ loudChunk ++ loudChunk ++ quietChunk ++ quietChunk] := by
  have e1 : chunkStep c1Config 2 c1Init loudChunk =
      ({ interval_frame_count := 0, interval_frames := [],
         speaking_frames := quietChunk ++ loudChunk,
         last_interval_frames := loudChunk,
         total_speaking_seconds := 0,
         status := Status.speaking }, none) := by
    rw [chunkStep_waiting_loud c1Config 2 c1Init loudChunk (by norm_num [c1Config, c1Init])
      rfl (by simpa [c1Config, c1Init] using loudChunk_above)]
    simp [c1Init]
  have e2 : chunkStep c1Config 2
      { interval_frame_count := 0, interval_frames := [],
        speaking_frames := quietChunk ++ loudChunk,
        last_interval_frames := loudChunk,
        total_speaking_seconds := 0,
        status := Status.speaking } loudChunk =
      ({ interval_frame_count := 0, interval_frames := [],
         speaking_frames := quietChunk ++ loudChunk ++ loudChunk,
         last_interval_frames := loudChunk,
         total_speaking_seconds := 1/10,
         status := Status.speaking }, none) := by
    rw [chunkStep_speaking_continue c1Config 2 _ loudChunk (by norm_num [c1Config])
      rfl (by simpa [c1Config] using loudChunk_above) (by norm_num [c1Config])]
    norm_num [c1Config]
  have e3 : chunkStep c1Config 2
      { interval_frame_count := 0, interval_frames := [],
        speaking_frames := quietChunk ++ loudChunk ++ loudChunk,
        last_interval_frames := loudChunk,
        total_speaking_seconds := 1/10,
        status := Status.speaking } loudChunk =
      ({ interval_frame_count := 0, interval_frames := [],
         speaking_frames := quietChunk ++ loudChunk ++ loudChunk ++ loudChunk,
         last_interval_frames := loudChunk,
         total_speaking_seconds := 1/5,
         status := Status.speaking }, none) := by
    rw [chunkStep_speaking_continue c1Config 2 _ loudChunk (by norm_num [c1Config])
      rfl (by simpa [c1Config] using loudChunk_above) (by norm_num [c1Config])]
    norm_num [c1Config]
  have e4 : chunkStep c1Config 2
      { interval_frame_count := 0, interval_frames := [],
        speaking_frames := quietChunk ++ loudChunk ++ loudChunk ++ loudChunk,
        last_interval_frames := loudChunk,
        total_speaking_seconds := 1/5,
        status := Status.speaking } quietChunk =
      ({ interval_frame_count := 0, interval_frames := [],
         speaking_frames := quietChunk ++ loudChunk ++ loudChunk ++ loudChunk ++ quietChunk,
         last_interval_frames := quietChunk,
         total_speaking_seconds := 3/10,
         status := Status.stopped }, none) := by
    rw [chunkStep_speaking_stop c1Config 2 _ quietChunk (by norm_num [c1Config])
      rfl (Or.inl (by simpa [c1Config] using quietChunk_below))]
    norm_num [c1Config]
  have e5 : chunkStep c1Config 2
      { interval_frame_count := 0, interval_frames := [],
        speaking_frames := quietChunk ++ loudChunk ++ loudChunk ++ loudChunk ++ quietChunk,
        last_interval_frames := quietChunk,
        total_speaking_seconds := 3/10,
        status := Status.stopped } quietChunk =
      ({ interval_frame_count := 0, interval_frames := [],
         speaking_frames := [],
         last_interval_frames := [],
         total_speaking_seconds := 2/5,
         status := Status.waiting },
       some (quietChunk ++ loudChunk ++ loudChunk ++ loudChunk ++ quietChunk ++ quietChunk)) := by
    rw [chunkStep_stopped_emit c1Config 2 _ quietChunk (by norm_num [c1Config])
      rfl (Or.inl (by simpa [c1Config] using quietChunk_below))]
    norm_num [c1Config]
  simp only [show c1Chunks = [loudChunk, loudChunk, loudChunk, quietChunk, quietChunk] from rfl,
    recording_task_loop_cons, recording_task_loop_nil, e1, e2, e3, e4, e5,
    Option.toList_none, Option.toList_some, List.nil_append, List.append_nil]

/-- C1 (counterexample): in the end-to-end scenario (rate 16000, 0.1 s
intervals of 1600 samples, threshold -40 dBFS, cap 5 s, starting in
Waiting with one quiet interval as lookback, then 3 loud intervals
followed by 2 quiet ones) exactly one utterance is emitted, but its
buffer holds 9600 samples, not the 8000 the claim states: the code also
appends the interval that triggers finalization, so the buffer is
pre-roll + 3 loud + 2 quiet intervals = 6 × 1600. -/
theorem C1_counterexample :
    (recording_task_loop c1Config 2 c1Init c1Chunks).2.map List.length = [9600] ∧
      (recording_task_loop c1Config 2 c1Init c1Chunks).2.map List.length ≠ [8000] := by
  rw [c1_run_out]
  simp only [List.map_cons, List.map_nil, List.length_append, quietChunk, loudChunk,
    List.length_replicate, ne_eq, List.cons.injEq, and_true]
  norm_num

/-- C1 (amended): the scenario of C1 produces exactly one emitted
utterance, and that utterance's buffer contains 6 × 1600 = 9600 samples:
pre-roll + 3 speaking intervals + both intervals consumed after the
speaker stops (the hangover interval and the finalizing interval are both
appended before emission). -/
theorem C1_scenario_amended :
    (recording_task_loop c1Config 2 c1Init c1Chunks).2.map List.length = [9600] := by
  rw [c1_run_out]
  simp only [List.map_cons, List.map_nil, List.length_append, quietChunk, loudChunk,
    List.length_replicate]

/-- C2 (code evaluated at the failing input): `total_speaking_seconds` is
never reset — not on a Waiting→Speaking transition and not on emission.
With 1 s intervals, a 2 s cap and 8 consecutive loud one-sample reads, the
first utterance is cap-finalized after 5 intervals, and the second is
cap-finalized after only 3 intervals (its own speech time is 2 s, within
the cap) because the session-cumulative duration (6 s at the end) is still
above the cap; under the claimed per-utterance reset the duration after
the final emission would be 0, not 6. -/
theorem C2_duration_not_reset :
    (recording_task_loop smallConfig 2 initLoopState
        (List.replicate 8 loud1)).2.map List.length = [5, 3] ∧
      (recording_task_loop smallConfig 2 initLoopState
        (List.replicate 8 loud1)).1.total_speaking_seconds = 6 := by
  constructor
  · decide
  · decide

/-- C3 (counterexample): on the interval on which an utterance is emitted
the rolling lookback is not overwritten with that interval's bytes — it is
cleared. Feeding loud, quiet, quiet one-sample intervals emits one
utterance `[1000, 0, 0]` on the third interval (bytes `[0]`), after which
`last_interval_frames` is `[]`, not `[0]`: the code clears
`interval_frames` before the trailing `last_interval_frames =
interval_frames` assignment. -/
theorem C3_counterexample :
    (recording_task_loop smallConfigNoCap 2 initLoopState [loud1, quiet1, quiet1]).2 =
        [[1000, 0, 0]] ∧
      (recording_task_loop smallConfigNoCap 2 initLoopState
        [loud1, quiet1, quiet1]).1.last_interval_frames = [] ∧
      ([] : List ℤ) ≠ [0] := by
  refine ⟨by decide, by decide, by decide⟩

/-- C3 (amended): after every completed interval the interval accumulator
is cleared, and the rolling lookback equals the just-completed interval's
bytes on every interval on which no utterance is emitted; on an interval
on which an utterance is emitted the lookback is cleared to empty
instead. -/
theorem C3_lookback (config : RecordingConfig) (w : ℕ) (st : LoopState) (c : List ℤ)
    (hfull : (config.rate : ℚ) * config.record_interval_sec ≤
      ((st.interval_frame_count + config.chunk : ℕ) : ℚ)) :
    (chunkStep config w st c).1.interval_frame_count = 0 ∧
      (chunkStep config w st c).1.interval_frames = [] ∧
      ((chunkStep config w st c).2 = none →
        (chunkStep config w st c).1.last_interval_frames = st.interval_frames ++ c) ∧
      (∀ u, (chunkStep config w st c).2 = some u →
        (chunkStep config w st c).1.last_interval_frames = []) := by
  cases hs : st.status with
  | waiting =>
    by_cases hl : ((config.silence_threshold : ℝ) : WithBot ℝ) <
        get_dbfs (st.interval_frames ++ c) w
    · rw [chunkStep_waiting_loud config w st c hfull hs hl]
      simp
    · rw [chunkStep_waiting_quiet config w st c hfull hs hl]
      simp
  | speaking =>
    by_cases hstop : ¬ ((config.silence_threshold : ℝ) : WithBot ℝ) <
        get_dbfs (st.interval_frames ++ c) w ∨
      config.max_recording_sec <
        st.total_speaking_seconds + config.record_interval_sec
    · rw [chunkStep_speaking_stop config w st c hfull hs hstop]
      simp
    · push_neg at hstop
      rw [chunkStep_speaking_continue config w st c hfull hs hstop.1
        (not_lt.2 hstop.2)]
      simp
  | stopped =>
    by_cases hstop : ¬ ((config.silence_threshold : ℝ) : WithBot ℝ) <
        get_dbfs (st.interval_frames ++ c) w ∨
      config.max_recording_sec <
        st.total_speaking_seconds + config.record_interval_sec
    · rw [chunkStep_stopped_emit config w st c hfull hs hstop]
      simp
    · push_neg at hstop
      rw [chunkStep_stopped_recover config w st c hfull hs hstop.1
        (not_lt.2 hstop.2)]
      simp

/-- Witness for C3 (amended): a concrete emitting interval, on which the
accumulator is cleared and the lookback comes out empty. -/
theorem C3_lookback_witness :
    ((smallConfigNoCap.rate : ℚ) * smallConfigNoCap.record_interval_sec ≤
      ((({ interval_frame_count := 0, interval_frames := [],
           speaking_frames := [1000, 0], last_interval_frames := [0],
           total_speaking_seconds := 1,
           status := Status.stopped } : LoopState).interval_frame_count +
        smallConfigNoCap.chunk : ℕ) : ℚ)) ∧
      (chunkStep smallConfigNoCap 2
        { interval_frame_count := 0, interval_frames := [],
          speaking_frames := [1000, 0], last_interval_frames := [0],
          total_speaking_seconds := 1,
          status := Status.stopped } quiet1).2 = some [1000, 0, 0] ∧
      (chunkStep smallConfigNoCap 2
        { interval_frame_count := 0, interval_frames := [],
          speaking_frames := [1000, 0], last_interval_frames := [0],
          total_speaking_seconds := 1,
          status := Status.stopped } quiet1).1.last_interval_frames = [] ∧
      (chunkStep smallConfigNoCap 2
        { interval_frame_count := 0, interval_frames := [],
          speaking_frames := [1000, 0], last_interval_frames := [0],
          total_speaking_seconds := 1,
          status := Status.stopped } quiet1).1.interval_frame_count = 0 :=
  have hfull : (smallConfigNoCap.rate : ℚ) * smallConfigNoCap.record_interval_sec ≤
      ((({ interval_frame_count := 0, interval_frames := [],
           speaking_frames := [1000, 0], last_interval_frames := [0],
           total_speaking_seconds := 1,
           status := Status.stopped } : LoopState).interval_frame_count +
        smallConfigNoCap.chunk : ℕ) : ℚ) := by norm_num [smallConfigNoCap]
  ⟨hfull, by decide,
    (C3_lookback smallConfigNoCap 2 _ quiet1 hfull).2.2.2 [1000, 0, 0] (by decide),
    (C3_lookback smallConfigNoCap 2 _ quiet1 hfull).1⟩

/-- C4 (counterexample): with 1 s intervals and a 2 s cap, 5 consecutive
loud one-sample intervals force exactly one emission, and the accumulated
speaking duration at the moment of emission is 4 s — which exceeds
`max_recording_sec` by 2 s, more than the one interval (1 s) of slack the
claim allows. -/
theorem C4_counterexample :
    (recording_task_loop smallConfig 2 initLoopState
        (List.replicate 5 loud1)).2.map List.length = [5] ∧
      (recording_task_loop smallConfig 2 initLoopState
        (List.replicate 5 loud1)).1.total_speaking_seconds = 4 ∧
      ¬ ((4 : ℚ) ≤ smallConfig.max_recording_sec + smallConfig.record_interval_sec) := by
  refine ⟨by decide, by decide, by norm_num [smallConfig]⟩

/-- C6 (counterexample): with 1 s intervals and a 2 s cap, feeding loud,
loud, loud, loud, quiet, loud produces an utterance boundary (exactly one
emission, triggered on the single-interval dip because the duration cap
has been exceeded), refuting the claim that a single-interval dip never
produces a boundary for every k. -/
theorem C6_counterexample :
    (recording_task_loop smallConfig 2 initLoopState
      [loud1, loud1, loud1, loud1, quiet1, loud1]).2.length = 1 := by
  decide

/-- C9: whenever the integer RMS of a chunk is zero (in particular for
all-zero samples and for empty input), `get_dbfs` returns `-inf` (`⊥`),
which is strictly below every finite threshold and never strictly above
one, so a zero-RMS interval is never classified as speaking. -/
theorem C9_zero_rms (frames : List ℤ) (w : ℕ) (hr : audioop_rms frames = 0) :
    get_dbfs frames w = ⊥ ∧
      ∀ q : ℚ, get_dbfs frames w < ((q : ℝ) : WithBot ℝ) ∧
        ¬ ((q : ℝ) : WithBot ℝ) < get_dbfs frames w := by
  have hb : get_dbfs frames w = ⊥ := by simp [get_dbfs, hr]
  refine ⟨hb, fun q => ?_⟩
  rw [hb]
  exact ⟨WithBot.bot_lt_coe _, not_lt_bot⟩

/-- Witness for C9 at an all-zero chunk (and the empty chunk also has RMS
zero). -/
theorem C9_zero_rms_witness :
    audioop_rms (List.replicate 4 0) = 0 ∧ audioop_rms [] = 0 ∧
      get_dbfs (List.replicate 4 0) 2 = ⊥ ∧
      ¬ (((-40 : ℚ) : ℝ) : WithBot ℝ) < get_dbfs (List.replicate 4 0) 2 :=
  ⟨by decide, by decide, (C9_zero_rms _ 2 (by decide)).1,
    ((C9_zero_rms _ 2 (by decide)).2 (-40)).2⟩

lemma slicesThen_nil_iff (t stream : List ℤ) :
    slicesThen [] t stream ↔ ∃ a, stream = a ++ t := Iff.rfl

lemma slicesThen_cons_iff (u : List ℤ) (us : List (List ℤ)) (t stream : List ℤ) :
    slicesThen (u :: us) t stream ↔
      ∃ a rest, stream = a ++ u ++ rest ∧ slicesThen us t rest := Iff.rfl

lemma slicesThen_extend (us : List (List ℤ)) (t d stream : List ℤ)
    (h : slicesThen us t stream) : slicesThen us (t ++ d) (stream ++ d) := by
  induction us generalizing stream with
  | nil =>
    obtain ⟨a, rfl⟩ := h
    exact ⟨a, by simp [List.append_assoc]⟩
  | cons u us ih =>
    obtain ⟨a, rest, rfl, h⟩ := h
    exact ⟨a, rest ++ d, by simp [List.append_assoc], ih rest h⟩

lemma slicesThen_tail_drop (us : List (List ℤ)) (x t stream : List ℤ)
    (h : slicesThen us (x ++ t) stream) : slicesThen us t stream := by
  induction us generalizing stream with
  | nil =>
    obtain ⟨a, rfl⟩ := h
    exact ⟨a ++ x, by simp [List.append_assoc]⟩
  | cons u us ih =>
    obtain ⟨a, rest, rfl, h⟩ := h
    exact ⟨a, rest, rfl, ih rest h⟩

lemma slicesThen_tail_nil (us : List (List ℤ)) (t stream : List ℤ)
    (h : slicesThen us t stream) : slicesThen us [] stream :=
  slicesThen_tail_drop us t [] stream (by rwa [List.append_nil])

lemma slicesThen_snoc (us : List (List ℤ)) (t d stream : List ℤ)
    (h : slicesThen us t stream) :
    slicesThen (us ++ [t ++ d]) [] (stream ++ d) := by
  induction us generalizing stream with
  | nil =>
    obtain ⟨a, rfl⟩ := h
    exact ⟨a, [], by simp [List.append_assoc], [], by simp⟩
  | cons u us ih =>
    obtain ⟨a, rest, rfl, h⟩ := h
    exact ⟨a, rest ++ d, by simp [List.append_assoc], ih rest h⟩

lemma c7_step (config : RecordingConfig) (w : ℕ) (st : LoopState) (c : List ℤ)
    (st' : LoopState) (out : Option (List ℤ)) (E : List (List ℤ)) (stream : List ℤ)
    (hstep : chunkStep config w st c = (st', out))
    (hw : st.status = Status.waiting →
      st.speaking_frames = [] ∧
        slicesThen E (st.last_interval_frames ++ st.interval_frames) stream)
    (hn : st.status ≠ Status.waiting →
      slicesThen E (st.speaking_frames ++ st.interval_frames) stream) :
    (st'.status = Status.waiting →
      st'.speaking_frames = [] ∧
        slicesThen (E ++ out.toList)
          (st'.last_interval_frames ++ st'.interval_frames) (stream ++ c)) ∧
    (st'.status ≠ Status.waiting →
      slicesThen (E ++ out.toList)
        (st'.speaking_frames ++ st'.interval_frames) (stream ++ c)) := by
  by_cases hfull : (config.rate : ℚ) * config.record_interval_sec ≤
      ((st.interval_frame_count + config.chunk : ℕ) : ℚ)
  · cases hs : st.status with
    | waiting =>
      obtain ⟨hsp, hsl⟩ := hw hs
      by_cases hl : ((config.silence_threshold : ℝ) : WithBot ℝ) <
          get_dbfs (st.interval_frames ++ c) w
      · rw [chunkStep_waiting_loud config w st c hfull hs hl] at hstep
        injection hstep with h1 h2
        subst h1; subst h2
        constructor
        · intro h; simp at h
        · intro _
          dsimp only
          rw [hsp]
          simpa [List.append_assoc] using
            slicesThen_extend E (st.last_interval_frames ++ st.interval_frames) c stream hsl
      · rw [chunkStep_waiting_quiet config w st c hfull hs hl] at hstep
        injection hstep with h1 h2
        subst h1; subst h2
        constructor
        · intro _
          refine ⟨hsp, ?_⟩
          dsimp only
          have h2 := slicesThen_extend E
            (st.last_interval_frames ++ st.interval_frames) c stream hsl
          rw [List.append_assoc] at h2
          simpa [List.append_nil] using
            slicesThen_tail_drop E st.last_interval_frames
              (st.interval_frames ++ c) (stream ++ c) h2
        · intro h
          rw [hs] at h
          simp at h
    | speaking =>
      have hprev := hn (by rw [hs]; simp)
      have hext : slicesThen E
          ((st.speaking_frames ++ (st.interval_frames ++ c)) ++ []) (stream ++ c) := by
        have := slicesThen_extend E
          (st.speaking_frames ++ st.interval_frames) c stream hprev
        simpa [List.append_assoc] using this
      by_cases hstop : ¬ ((config.silence_threshold : ℝ) : WithBot ℝ) <
          get_dbfs (st.interval_frames ++ c) w ∨
        config.max_recording_sec <
          st.total_speaking_seconds + config.record_interval_sec
      · rw [chunkStep_speaking_stop config w st c hfull hs hstop] at hstep
        injection hstep with h1 h2
        subst h1; subst h2
        exact ⟨fun h => by simp at h, fun _ => by simpa using hext⟩
      · push_neg at hstop
        rw [chunkStep_speaking_continue config w st c hfull hs hstop.1
          (not_lt.2 hstop.2)] at hstep
        injection hstep with h1 h2
        subst h1; subst h2
        exact ⟨fun h => by simp at h, fun _ => by simpa using hext⟩
    | stopped =>
      have hprev := hn (by rw [hs]; simp)
      by_cases hstop : ¬ ((config.silence_threshold : ℝ) : WithBot ℝ) <
          get_dbfs (st.interval_frames ++ c) w ∨
        config.max_recording_sec <
          st.total_speaking_seconds + config.record_interval_sec
      · rw [chunkStep_stopped_emit config w st c hfull hs hstop] at hstep
        injection hstep with h1 h2
        subst h1; subst h2
        constructor
        · intro _
          refine ⟨rfl, ?_⟩
          dsimp only
          have := slicesThen_snoc E
            (st.speaking_frames ++ st.interval_frames) c stream hprev
          simpa [List.append_assoc] using this
        · intro h; simp at h
      · push_neg at hstop
        rw [chunkStep_stopped_recover config w st c hfull hs hstop.1
          (not_lt.2 hstop.2)] at hstep
        injection hstep with h1 h2
        subst h1; subst h2
        have hext : slicesThen E
            ((st.speaking_frames ++ (st.interval_frames ++ c)) ++ []) (stream ++ c) := by
          have := slicesThen_extend E
            (st.speaking_frames ++ st.interval_frames) c stream hprev
          simpa [List.append_assoc] using this
        exact ⟨fun h => by simp at h, fun _ => by simpa using hext⟩
  · rw [chunkStep_incomplete config w st c hfull] at hstep
    injection hstep with h1 h2
    subst h1; subst h2
    constructor
    · intro h
      dsimp only at h ⊢
      obtain ⟨hsp, hsl⟩ := hw h
      refine ⟨hsp, ?_⟩
      simpa [List.append_assoc] using
        slicesThen_extend E (st.last_interval_frames ++ st.interval_frames) c stream hsl
    · intro h
      dsimp only at h ⊢
      have := slicesThen_extend E (st.speaking_frames ++ st.interval_frames) c stream (hn h)
      simpa [List.append_assoc] using this

lemma c7_invariant (config : RecordingConfig) (w : ℕ) :
    ∀ (chunks : List (List ℤ)) (st : LoopState) (E : List (List ℤ)) (stream : List ℤ),
      (st.status = Status.waiting →
        st.speaking_frames = [] ∧
          slicesThen E (st.last_interval_frames ++ st.interval_frames) stream) →
      (st.status ≠ Status.waiting →
        slicesThen E (st.speaking_frames ++ st.interval_frames) stream) →
      ((recording_task_loop config w st chunks).1.status = Status.waiting →
        (recording_task_loop config w st chunks).1.speaking_frames = [] ∧
          slicesThen (E ++ (recording_task_loop config w st chunks).2)
            ((recording_task_loop config w st chunks).1.last_interval_frames ++
              (recording_task_loop config w st chunks).1.interval_frames)
            (stream ++ chunks.flatten)) ∧
      ((recording_task_loop config w st chunks).1.status ≠ Status.waiting →
        slicesThen (E ++ (recording_task_loop config w st chunks).2)
          ((recording_task_loop config w st chunks).1.speaking_frames ++
            (recording_task_loop config w st chunks).1.interval_frames)
          (stream ++ chunks.flatten)) := by
  intro chunks
  induction chunks with
  | nil =>
    intro st E stream hw hn
    simpa [recording_task_loop] using ⟨hw, hn⟩
  | cons c rest ih =>
    intro st E stream hw hn
    rcases hstep : chunkStep config w st c with ⟨st', out⟩
    obtain ⟨hw', hn'⟩ := c7_step config w st c st' out E stream hstep hw hn
    have hmain := ih st' (E ++ out.toList) (stream ++ c) hw' hn'
    rw [recording_task_loop_cons, hstep]
    simpa [List.append_assoc] using hmain

/-- C7: within one session (one run of the segmentation loop from its
initial state), the emitted utterances occupy pairwise disjoint contiguous
ranges of the input stream, in order: every input byte, including bytes
used as pre-roll lookback, is contained in at most one emitted
utterance. -/
theorem C7_no_overlap (config : RecordingConfig) (w : ℕ) (chunks : List (List ℤ)) :
    slicesThen (recording_task_loop config w initLoopState chunks).2 [] chunks.flatten := by
  have hbase₁ : initLoopState.status = Status.waiting →
      initLoopState.speaking_frames = [] ∧
        slicesThen ([] : List (List ℤ))
          (initLoopState.last_interval_frames ++ initLoopState.interval_frames) [] :=
    fun _ => ⟨rfl, ⟨[], by simp [initLoopState]⟩⟩
  have hbase₂ : initLoopState.status ≠ Status.waiting →
      slicesThen ([] : List (List ℤ))
        (initLoopState.speaking_frames ++ initLoopState.interval_frames) [] :=
    fun h => absurd rfl h
  obtain ⟨h1, h2⟩ := c7_invariant config w chunks initLoopState [] [] hbase₁ hbase₂
  by_cases hw : (recording_task_loop config w initLoopState chunks).1.status = Status.waiting
  · have := (h1 hw).2
    simpa using slicesThen_tail_nil _ _ _ this
  · have := h2 hw
    simpa using slicesThen_tail_nil _ _ _ this

lemma c4_loud_invariant (config : RecordingConfig) (w : ℕ)
    (hchunk : (config.rate : ℚ) * config.record_interval_sec ≤ (config.chunk : ℚ))
    (hmax : 0 ≤ config.max_recording_sec)
    (hi : 0 ≤ config.record_interval_sec) :
    ∀ chunks : List (List ℤ),
      (∀ c ∈ chunks, ((config.silence_threshold : ℝ) : WithBot ℝ) < get_dbfs c w) →
      (recording_task_loop config w initLoopState chunks).2 = [] →
      (recording_task_loop config w initLoopState chunks).1.interval_frame_count = 0 ∧
      (recording_task_loop config w initLoopState chunks).1.interval_frames = [] ∧
      (chunks = [] →
        (recording_task_loop config w initLoopState chunks).1.status = Status.waiting ∧
        (recording_task_loop config w initLoopState chunks).1.total_speaking_seconds = 0) ∧
      (chunks ≠ [] →
        (recording_task_loop config w initLoopState chunks).1.total_speaking_seconds =
          ((chunks.length : ℚ) - 1) * config.record_interval_sec ∧
        (((recording_task_loop config w initLoopState chunks).1.status = Status.speaking ∧
            (recording_task_loop config w initLoopState chunks).1.total_speaking_seconds ≤
              config.max_recording_sec) ∨
          ((recording_task_loop config w initLoopState chunks).1.status = Status.stopped ∧
            config.max_recording_sec <
              (recording_task_loop config w initLoopState chunks).1.total_speaking_seconds ∧
            (recording_task_loop config w initLoopState chunks).1.total_speaking_seconds ≤
              config.max_recording_sec + config.record_interval_sec))) := by
  intro chunks
  induction chunks using List.reverseRecOn with
  | nil =>
    intro _ _
    simp [recording_task_loop, initLoopState]
  | append_singleton xs c ih =>
    intro hloud hno
    have hsplit := recording_task_loop_append config w initLoopState xs [c]
    rw [hsplit] at hno
    obtain ⟨hxs_no, hc_no⟩ := List.append_eq_nil.mp hno
    have hloud_xs : ∀ d ∈ xs, ((config.silence_threshold : ℝ) : WithBot ℝ) <
        get_dbfs d w := fun d hd => hloud d (List.mem_append_left _ hd)
    obtain ⟨hcnt, hint, hinv⟩ := ih hloud_xs hxs_no
    have hcmem : c ∈ xs ++ [c] := List.mem_append_right _ (List.mem_singleton.mpr rfl)
    have hfull' : (config.rate : ℚ) * config.record_interval_sec ≤
        (((recording_task_loop config w initLoopState xs).1.interval_frame_count +
          config.chunk : ℕ) : ℚ) := by
      rw [hcnt]
      simpa using hchunk
    have hl' : ((config.silence_threshold : ℝ) : WithBot ℝ) <
        get_dbfs ((recording_task_loop config w initLoopState xs).1.interval_frames ++ c) w := by
      rw [hint, List.nil_append]
      exact hloud c hcmem
    have hstep_run : recording_task_loop config w
        (recording_task_loop config w initLoopState xs).1 [c] =
        ((chunkStep config w (recording_task_loop config w initLoopState xs).1 c).1,
          (chunkStep config w (recording_task_loop config w initLoopState xs).1 c).2.toList ++ []) :=
      recording_task_loop_cons config w _ c []
    by_cases hemp : xs = []
    · subst hemp
      have hinit : (recording_task_loop config w initLoopState ([] : List (List ℤ))).1 =
          initLoopState := rfl
      rw [hsplit, hstep_run, hinit,
        chunkStep_waiting_loud config w initLoopState c (by rw [hinit] at hfull'; exact hfull')
          rfl (by rw [hinit] at hl'; exact hl')]
      refine ⟨rfl, rfl, by simp, fun _ => ?_⟩
      constructor
      · simp [initLoopState]
      · left
        exact ⟨rfl, by simpa [initLoopState] using hmax⟩
    · obtain ⟨htot, hdisj⟩ := hinv.2 hemp
      have hlen : ((xs ++ [c]).length : ℚ) - 1 = (xs.length : ℚ) := by
        push_cast [List.length_append, List.length_singleton]
        ring
      rcases hdisj with ⟨hs, hle⟩ | ⟨hs, hlt2, hle2⟩
      · by_cases hcap : config.max_recording_sec <
            (recording_task_loop config w initLoopState xs).1.total_speaking_seconds +
              config.record_interval_sec
        · rw [hsplit, hstep_run,
            chunkStep_speaking_stop config w _ c hfull' hs (Or.inr hcap)]
          refine ⟨rfl, rfl, by simp, fun _ => ?_⟩
          constructor
          · show (recording_task_loop config w initLoopState xs).1.total_speaking_seconds +
              config.record_interval_sec = _
            rw [htot, hlen]
            ring
          · right
            refine ⟨rfl, hcap, ?_⟩
            show (recording_task_loop config w initLoopState xs).1.total_speaking_seconds +
              config.record_interval_sec ≤ _
            linarith
        · rw [hsplit, hstep_run,
            chunkStep_speaking_continue config w _ c hfull' hs hl' hcap]
          refine ⟨rfl, rfl, by simp, fun _ => ?_⟩
          constructor
          · show (recording_task_loop config w initLoopState xs).1.total_speaking_seconds +
              config.record_interval_sec = _
            rw [htot, hlen]
            ring
          · left
            exact ⟨rfl, not_lt.1 hcap⟩
      · exfalso
        have hcap2 : config.max_recording_sec <
            (recording_task_loop config w initLoopState xs).1.total_speaking_seconds +
              config.record_interval_sec := by linarith
        rw [hstep_run, chunkStep_stopped_emit config w _ c hfull' hs (Or.inr hcap2)] at hc_no
        simp at hc_no

/-- C4 (amended): for an input on which every interval is strictly above
the threshold and every read completes an interval, the loop respects the
cap as a soft ceiling with up to two intervals of slack: while no
utterance has been emitted the accumulated duration stays at most
`max_recording_sec + record_interval_sec`; at the first emission the
accumulated duration strictly exceeds `max_recording_sec +
record_interval_sec` (so the one-interval bound of the original claim is
not met) and is at most `max_recording_sec + 2 * record_interval_sec`;
and the emission is forced: if no utterance is ever emitted the input can
span at most `max_recording_sec + record_interval_sec` seconds beyond its
first interval. (After the first emission the duration is not reset, so
later emissions in the same session can exceed the cap by more.) -/
theorem C4_soft_cap (config : RecordingConfig) (w : ℕ) (chunks : List (List ℤ))
    (hchunk : (config.rate : ℚ) * config.record_interval_sec ≤ (config.chunk : ℚ))
    (hmax : 0 ≤ config.max_recording_sec)
    (hi : 0 < config.record_interval_sec)
    (hloud : ∀ c ∈ chunks, ((config.silence_threshold : ℝ) : WithBot ℝ) < get_dbfs c w) :
    (∀ i, (recording_task_loop config w initLoopState (chunks.take i)).2 = [] →
        (recording_task_loop config w initLoopState (chunks.take i)).1.total_speaking_seconds ≤
          config.max_recording_sec + config.record_interval_sec) ∧
    (∀ i, (recording_task_loop config w initLoopState (chunks.take i)).2 = [] →
        (recording_task_loop config w initLoopState (chunks.take (i + 1))).2.length = 1 →
        config.max_recording_sec + config.record_interval_sec <
          (recording_task_loop config w initLoopState
            (chunks.take (i + 1))).1.total_speaking_seconds ∧
        (recording_task_loop config w initLoopState
            (chunks.take (i + 1))).1.total_speaking_seconds ≤
          config.max_recording_sec + 2 * config.record_interval_sec) ∧
    ((recording_task_loop config w initLoopState chunks).2 = [] →
      ((chunks.length : ℚ) - 1) * config.record_interval_sec ≤
        config.max_recording_sec + config.record_interval_sec) := by
  have hloud_take : ∀ i, ∀ c ∈ chunks.take i,
      ((config.silence_threshold : ℝ) : WithBot ℝ) < get_dbfs c w :=
    fun i c hc => hloud c (List.take_subset i chunks hc)
  have hbound : ∀ l : List (List ℤ),
      (∀ c ∈ l, ((config.silence_threshold : ℝ) : WithBot ℝ) < get_dbfs c w) →
      (recording_task_loop config w initLoopState l).2 = [] →
      (recording_task_loop config w initLoopState l).1.total_speaking_seconds ≤
        config.max_recording_sec + config.record_interval_sec := by
    intro l hld hno
    obtain ⟨_, _, hnil, hne⟩ := c4_loud_invariant config w hchunk hmax hi.le l hld hno
    by_cases h : l = []
    · rw [(hnil h).2]
      linarith
    · obtain ⟨_, hd⟩ := hne h
      rcases hd with ⟨_, hle⟩ | ⟨_, _, hle⟩
      · linarith
      · exact hle
  refine ⟨fun i => hbound _ (hloud_take i), fun i h0 h1 => ?_, fun hno => ?_⟩
  · have hlen : i < chunks.length := by
      by_contra hge
      push_neg at hge
      rw [List.take_of_length_le hge] at h0
      rw [List.take_of_length_le (le_trans hge (Nat.le_succ i))] at h1
      rw [h0] at h1
      simp at h1
    have htake : chunks.take (i + 1) = chunks.take i ++ [chunks[i]] := by
      rw [List.take_succ, List.getElem?_eq_getElem hlen]
      rfl
    obtain ⟨hcnt, hint, hnil, hne⟩ :=
      c4_loud_invariant config w hchunk hmax hi.le (chunks.take i) (hloud_take i) h0
    have hfull' : (config.rate : ℚ) * config.record_interval_sec ≤
        (((recording_task_loop config w initLoopState (chunks.take i)).1.interval_frame_count +
          config.chunk : ℕ) : ℚ) := by
      rw [hcnt]
      simpa using hchunk
    have hl' : ((config.silence_threshold : ℝ) : WithBot ℝ) <
        get_dbfs ((recording_task_loop config w initLoopState
          (chunks.take i)).1.interval_frames ++ chunks[i]) w := by
      rw [hint, List.nil_append]
      exact hloud _ (List.getElem_mem hlen)
    have hsplit := recording_task_loop_append config w initLoopState (chunks.take i) [chunks[i]]
    have hstep_run : recording_task_loop config w
        (recording_task_loop config w initLoopState (chunks.take i)).1 [chunks[i]] =
        ((chunkStep config w
            (recording_task_loop config w initLoopState (chunks.take i)).1 chunks[i]).1,
          (chunkStep config w
            (recording_task_loop config w initLoopState (chunks.take i)).1 chunks[i]).2.toList ++ []) :=
      recording_task_loop_cons config w _ _ []
    by_cases hemp : chunks.take i = []
    · exfalso
      have hinit : (recording_task_loop config w initLoopState (chunks.take i)).1 =
          initLoopState := by rw [hemp]; rfl
      rw [htake, hsplit, hstep_run, hinit] at h1
      rw [hinit] at hfull' hl'
      rw [chunkStep_waiting_loud config w initLoopState chunks[i] hfull' rfl hl'] at h1
      rw [h0] at h1
      simp at h1
    · obtain ⟨htot, hd⟩ := hne hemp
      rcases hd with ⟨hs, hle⟩ | ⟨hs, hlt2, hle2⟩
      · exfalso
        by_cases hcap : config.max_recording_sec <
            (recording_task_loop config w initLoopState
              (chunks.take i)).1.total_speaking_seconds + config.record_interval_sec
        · rw [htake, hsplit, hstep_run,
            chunkStep_speaking_stop config w _ chunks[i] hfull' hs (Or.inr hcap)] at h1
          rw [h0] at h1
          simp at h1
        · rw [htake, hsplit, hstep_run,
            chunkStep_speaking_continue config w _ chunks[i] hfull' hs hl' hcap] at h1
          rw [h0] at h1
          simp at h1
      · have hcap2 : config.max_recording_sec <
            (recording_task_loop config w initLoopState
              (chunks.take i)).1.total_speaking_seconds + config.record_interval_sec := by
          linarith
        rw [htake, hsplit, hstep_run,
          chunkStep_stopped_emit config w _ chunks[i] hfull' hs (Or.inr hcap2)]
        constructor
        · show _ < (recording_task_loop config w initLoopState
            (chunks.take i)).1.total_speaking_seconds + config.record_interval_sec
          linarith
        · show (recording_task_loop config w initLoopState
            (chunks.take i)).1.total_speaking_seconds + config.record_interval_sec ≤ _
          linarith
  · obtain ⟨_, _, hnil, hne⟩ := c4_loud_invariant config w hchunk hmax hi.le chunks hloud hno
    by_cases h : chunks = []
    · subst h
      simp only [List.length_nil, Nat.cast_zero]
      ring_nf
      linarith
    · obtain ⟨htot, hd⟩ := hne h
      rw [← htot]
      rcases hd with ⟨_, hle⟩ | ⟨_, _, hle⟩
      · linarith
      · exact hle

/-- Witness for C4 (amended): with 1 s intervals, a 2 s cap and 5 loud
one-sample intervals, the first four produce no emission, the fifth
produces exactly one, and the duration at that emission is above
`max + interval` (3 s) and at most `max + 2 * interval` (4 s). -/
theorem C4_soft_cap_witness :
    ((recording_task_loop smallConfig 2 initLoopState
        ((List.replicate 5 loud1).take 4)).2 = [] ∧
      (recording_task_loop smallConfig 2 initLoopState
        ((List.replicate 5 loud1).take 5)).2.length = 1) ∧
      smallConfig.max_recording_sec + smallConfig.record_interval_sec <
        (recording_task_loop smallConfig 2 initLoopState
          ((List.replicate 5 loud1).take (4 + 1))).1.total_speaking_seconds ∧
      (recording_task_loop smallConfig 2 initLoopState
          ((List.replicate 5 loud1).take (4 + 1))).1.total_speaking_seconds ≤
        smallConfig.max_recording_sec + 2 * smallConfig.record_interval_sec :=
  ⟨⟨by decide, by decide⟩,
    (C4_soft_cap smallConfig 2 (List.replicate 5 loud1)
      (by norm_num [smallConfig]) (by norm_num [smallConfig]) (by norm_num [smallConfig])
      (fun c hc => by rw [List.eq_of_mem_replicate hc]; decide)).2.1
      4 (by decide) (by decide)⟩

lemma c6_loud_run (config : RecordingConfig) (w : ℕ)
    (hchunk : (config.rate : ℚ) * config.record_interval_sec ≤ (config.chunk : ℚ))
    (hi : 0 ≤ config.record_interval_sec) :
    ∀ (ks : List (List ℤ)) (st : LoopState),
      st.status = Status.speaking →
      st.interval_frame_count = 0 →
      st.interval_frames = [] →
      (∀ k ∈ ks, ((config.silence_threshold : ℝ) : WithBot ℝ) < get_dbfs k w) →
      st.total_speaking_seconds + (ks.length : ℚ) * config.record_interval_sec ≤
        config.max_recording_sec →
      (recording_task_loop config w st ks).2 = [] ∧
      (recording_task_loop config w st ks).1.status = Status.speaking ∧
      (recording_task_loop config w st ks).1.interval_frame_count = 0 ∧
      (recording_task_loop config w st ks).1.interval_frames = [] ∧
      (recording_task_loop config w st ks).1.speaking_frames =
        st.speaking_frames ++ ks.flatten ∧
      (recording_task_loop config w st ks).1.total_speaking_seconds =
        st.total_speaking_seconds + (ks.length : ℚ) * config.record_interval_sec := by
  intro ks
  induction ks with
  | nil =>
    intro st hs hcnt hint _ _
    rw [recording_task_loop_nil]
    exact ⟨rfl, hs, hcnt, hint, by simp, by simp⟩
  | cons k ks ih =>
    intro st hs hcnt hint hloud hcap
    have hfull' : (config.rate : ℚ) * config.record_interval_sec ≤
        ((st.interval_frame_count + config.chunk : ℕ) : ℚ) := by
      rw [hcnt]
      simpa using hchunk
    have hl' : ((config.silence_threshold : ℝ) : WithBot ℝ) <
        get_dbfs (st.interval_frames ++ k) w := by
      rw [hint, List.nil_append]
      exact hloud k (by simp)
    have hlen0 : (0 : ℚ) ≤ (ks.length : ℚ) := Nat.cast_nonneg _
    have hmul0 : (0 : ℚ) ≤ (ks.length : ℚ) * config.record_interval_sec :=
      mul_nonneg hlen0 hi
    have hcons : st.total_speaking_seconds +
        (((k :: ks).length : ℚ)) * config.record_interval_sec =
        (st.total_speaking_seconds + config.record_interval_sec) +
          (ks.length : ℚ) * config.record_interval_sec := by
      push_cast [List.length_cons]
      ring
    have hcap1 : ¬ config.max_recording_sec <
        st.total_speaking_seconds + config.record_interval_sec := by
      rw [hcons] at hcap
      exact not_lt.2 (by linarith)
    rw [recording_task_loop_cons,
      chunkStep_speaking_continue config w st k hfull' hs hl' hcap1]
    obtain ⟨ho, hst', hcnt', hint', hsp', htot'⟩ := ih
      { interval_frame_count := 0
        interval_frames := []
        speaking_frames := st.speaking_frames ++ (st.interval_frames ++ k)
        last_interval_frames := st.interval_frames ++ k
        total_speaking_seconds := st.total_speaking_seconds + config.record_interval_sec
        status := Status.speaking }
      rfl rfl rfl (fun x hx => hloud x (by simp [hx]))
      (by
        dsimp only
        rw [hcons] at hcap
        exact hcap)
    refine ⟨by simpa using ho, hst', hcnt', hint', ?_, ?_⟩
    · rw [hsp']
      dsimp only
      rw [hint]
      simp [List.append_assoc]
    · rw [htot']
      dsimp only
      rw [hcons]

/-- C6 (amended): if, while an utterance is being built (state `Speaking`
with an interval boundary just completed), loudness stays strictly above
the threshold for k consecutive intervals, is at or below it for exactly
one interval, and is strictly above it again on the next interval, then —
provided the accumulated duration through the recovery interval stays
within `max_recording_sec` (the side condition the original claim omits,
and without which the cap forces an emission, see the counterexample) —
no utterance boundary is produced: the machine returns to `Speaking` and
the utterance buffer accumulates all audio across the dip. -/
theorem C6_dip_recovery (config : RecordingConfig) (w : ℕ) (st : LoopState)
    (ks : List (List ℤ)) (q c : List ℤ)
    (hchunk : (config.rate : ℚ) * config.record_interval_sec ≤ (config.chunk : ℚ))
    (hi : 0 ≤ config.record_interval_sec)
    (hk : 1 ≤ ks.length)
    (hst : st.status = Status.speaking)
    (hcnt : st.interval_frame_count = 0)
    (hint : st.interval_frames = [])
    (hloud : ∀ k ∈ ks, ((config.silence_threshold : ℝ) : WithBot ℝ) < get_dbfs k w)
    (hq : ¬ ((config.silence_threshold : ℝ) : WithBot ℝ) < get_dbfs q w)
    (hc : ((config.silence_threshold : ℝ) : WithBot ℝ) < get_dbfs c w)
    (hcap : st.total_speaking_seconds +
        ((ks.length : ℚ) + 2) * config.record_interval_sec ≤
      config.max_recording_sec) :
    (recording_task_loop config w st (ks ++ [q, c])).2 = [] ∧
      (recording_task_loop config w st (ks ++ [q, c])).1.status = Status.speaking ∧
      (recording_task_loop config w st (ks ++ [q, c])).1.speaking_frames =
        st.speaking_frames ++ ks.flatten ++ q ++ c ∧
      (recording_task_loop config w st (ks ++ [q, c])).1.total_speaking_seconds =
        st.total_speaking_seconds +
          ((ks.length : ℚ) + 2) * config.record_interval_sec := by
  have hlen0 : (0 : ℚ) ≤ (ks.length : ℚ) := Nat.cast_nonneg _
  have hcap0 : st.total_speaking_seconds +
      (ks.length : ℚ) * config.record_interval_sec ≤ config.max_recording_sec := by
    nlinarith
  obtain ⟨ho, hs1, hcnt1, hint1, hsp1, htot1⟩ :=
    c6_loud_run config w hchunk hi ks st hst hcnt hint hloud hcap0
  have hfullq : (config.rate : ℚ) * config.record_interval_sec ≤
      (((recording_task_loop config w st ks).1.interval_frame_count +
        config.chunk : ℕ) : ℚ) := by
    rw [hcnt1]
    simpa using hchunk
  have hq' : ¬ ((config.silence_threshold : ℝ) : WithBot ℝ) <
      get_dbfs ((recording_task_loop config w st ks).1.interval_frames ++ q) w := by
    rw [hint1, List.nil_append]
    exact hq
  rw [recording_task_loop_append config w st ks [q, c]]
  rw [recording_task_loop_cons,
    chunkStep_speaking_stop config w _ q hfullq hs1 (Or.inl hq')]
  rw [hint1]
  simp only [List.nil_append]
  have hfullc : (config.rate : ℚ) * config.record_interval_sec ≤
      (((⟨0, [], (recording_task_loop config w st ks).1.speaking_frames ++ q, q,
          (recording_task_loop config w st ks).1.total_speaking_seconds +
            config.record_interval_sec,
          Status.stopped⟩ : LoopState).interval_frame_count +
        config.chunk : ℕ) : ℚ) := by
    simpa using hchunk
  have hc' : ((config.silence_threshold : ℝ) : WithBot ℝ) <
      get_dbfs ((⟨0, [], (recording_task_loop config w st ks).1.speaking_frames ++ q, q,
          (recording_task_loop config w st ks).1.total_speaking_seconds +
            config.record_interval_sec,
          Status.stopped⟩ : LoopState).interval_frames ++ c) w := by
    simpa using hc
  have hcapc : ¬ config.max_recording_sec <
      (⟨0, [], (recording_task_loop config w st ks).1.speaking_frames ++ q, q,
          (recording_task_loop config w st ks).1.total_speaking_seconds +
            config.record_interval_sec,
          Status.stopped⟩ : LoopState).total_speaking_seconds +
        config.record_interval_sec := by
    dsimp only
    rw [htot1]
    exact not_lt.2 (by linarith)
  rw [recording_task_loop_cons,
    chunkStep_stopped_recover config w _ c hfullc rfl hc' hcapc,
    recording_task_loop_nil]
  refine ⟨by simpa using ho, rfl, ?_, ?_⟩
  · dsimp only
    rw [hsp1]
    simp [List.append_assoc]
  · dsimp only
    rw [htot1]
    ring

/-- Witness for C6 (amended): from a mid-utterance `Speaking` state, one
loud interval, a one-interval dip, and a loud recovery interval produce no
emission and return to `Speaking`, the buffer retaining all audio. -/
theorem C6_dip_recovery_witness :
    (recording_task_loop smallConfigNoCap 2
        { interval_frame_count := 0, interval_frames := [],
          speaking_frames := [1000, 1000], last_interval_frames := [1000],
          total_speaking_seconds := 1, status := Status.speaking }
        ([loud1] ++ [quiet1, loud1])).2 = [] ∧
      (recording_task_loop smallConfigNoCap 2
        { interval_frame_count := 0, interval_frames := [],
          speaking_frames := [1000, 1000], last_interval_frames := [1000],
          total_speaking_seconds := 1, status := Status.speaking }
        ([loud1] ++ [quiet1, loud1])).1.status = Status.speaking ∧
      (recording_task_loop smallConfigNoCap 2
        { interval_frame_count := 0, interval_frames := [],
          speaking_frames := [1000, 1000], last_interval_frames := [1000],
          total_speaking_seconds := 1, status := Status.speaking }
        ([loud1] ++ [quiet1, loud1])).1.speaking_frames =
        [1000, 1000] ++ [loud1].flatten ++ quiet1 ++ loud1 ∧
      (recording_task_loop smallConfigNoCap 2
        { interval_frame_count := 0, interval_frames := [],
          speaking_frames := [1000, 1000], last_interval_frames := [1000],
          total_speaking_seconds := 1, status := Status.speaking }
        ([loud1] ++ [quiet1, loud1])).1.total_speaking_seconds =
        1 + (((([loud1] : List (List ℤ)).length : ℚ)) + 2) *
          smallConfigNoCap.record_interval_sec :=
  C6_dip_recovery smallConfigNoCap 2
    { interval_frame_count := 0, interval_frames := [],
      speaking_frames := [1000, 1000], last_interval_frames := [1000],
      total_speaking_seconds := 1, status := Status.speaking }
    [loud1] quiet1 loud1
    (by norm_num [smallConfigNoCap]) (by norm_num [smallConfigNoCap]) (by decide)
    rfl rfl rfl
    (fun k hk => by rw [List.eq_of_mem_singleton hk]; decide)
    (by decide) (by decide)
    (by norm_num [smallConfigNoCap])

lemma worker_loop_clean (config : RecordingConfig) (w : ℕ) :
    ∀ (chunks : List (List ℤ)) (st : LoopState) (yi : ℕ) (s : WState),
      ∃ s', recording_worker_loop config w 0 (fun _ => true) none chunks st yi s =
          (Except.ok false, s') ∧ s'.closes = s.closes := by
  intro chunks
  induction chunks with
  | nil =>
    intro st yi s
    exact ⟨s, rfl, rfl⟩
  | cons c rest ih =>
    intro st yi s
    cases hp : (chunkStep config w st c).2 with
    | none =>
      obtain ⟨s', h1, h2⟩ := ih (chunkStep config w st c).1 yi
        { s with reads := s.reads + 1 }
      refine ⟨s', ?_, h2⟩
      simp only [recording_worker_loop]
      rw [if_neg (by simp : ¬ (none : Option ℕ) = some s.reads)]
      simp only [hp]
      exact h1
    | some u =>
      obtain ⟨s', h1, h2⟩ := ih (chunkStep config w st c).1 (yi + 1)
        { s with reads := s.reads + 1, queueLen := s.queueLen + 1, published := s.published ++ [u] }
      refine ⟨s', ?_, h2⟩
      simp only [recording_worker_loop]
      rw [if_neg (by simp : ¬ (none : Option ℕ) = some s.reads)]
      simp only [hp]
      rw [if_neg (by simp)]
      simp only [put_nowait]
      rw [if_pos (Or.inl trivial)]
      exact h1

lemma worker_loop_cancel_at (config : RecordingConfig) (w : ℕ) :
    ∀ (chunks : List (List ℤ)) (n : ℕ) (st : LoopState) (yi : ℕ) (s : WState),
      n < chunks.length →
      ∃ s', recording_worker_loop config w 0 (fun _ => true) (some (s.reads + n))
          chunks st yi s = (Except.error WErr.cancelled, s') ∧
        s'.closes = s.closes := by
  intro chunks
  induction chunks with
  | nil =>
    intro n st yi s hn
    simp at hn
  | cons c rest ih =>
    intro n st yi s hn
    cases n with
    | zero =>
      refine ⟨s, ?_, rfl⟩
      simp only [recording_worker_loop]
      rw [if_pos (by simp)]
    | succ m =>
      have hne : ¬ (some (s.reads + (m + 1)) : Option ℕ) = some s.reads := by
        simp only [Option.some.injEq]
        omega
      have hm : m < rest.length := Nat.lt_of_succ_lt_succ hn
      cases hp : (chunkStep config w st c).2 with
      | none =>
        obtain ⟨s', h1, h2⟩ := ih m (chunkStep config w st c).1 yi
          { s with reads := s.reads + 1 } hm
        refine ⟨s', ?_, h2⟩
        simp only [recording_worker_loop]
        rw [if_neg hne]
        simp only [hp]
        rw [show s.reads + (m + 1) =
          ({ s with reads := s.reads + 1 } : WState).reads + m from by
            show s.reads + (m + 1) = s.reads + 1 + m
            omega]
        exact h1
      | some u =>
        obtain ⟨s', h1, h2⟩ := ih m (chunkStep config w st c).1 (yi + 1)
          { s with reads := s.reads + 1, queueLen := s.queueLen + 1, published := s.published ++ [u] } hm
        refine ⟨s', ?_, h2⟩
        simp only [recording_worker_loop]
        rw [if_neg hne]
        simp only [hp]
        rw [if_neg (by simp)]
        simp only [put_nowait]
        rw [if_pos (Or.inl trivial)]
        rw [show s.reads + (m + 1) =
          ({ s with reads := s.reads + 1, queueLen := s.queueLen + 1, published := s.published ++ [u] } : WState).reads + m from by
            show s.reads + (m + 1) = s.reads + 1 + m
            omega]
        exact h1

lemma worker_loop_gate_false (config : RecordingConfig) (w : ℕ) (maxsize : ℕ) :
    ∀ (chunks : List (List ℤ)) (st : LoopState) (yi : ℕ) (s : WState),
      ∃ (paused : Bool) (s' : WState),
        recording_worker_loop config w maxsize (fun _ => false) none chunks st yi s =
          (Except.ok paused, s') ∧
        s'.published = s.published ∧ s'.closes = s.closes ∧
        s'.reads = s.reads + readsUntilFirstYield config w chunks st ∧
        ((recording_task_loop config w st chunks).2 = [] → paused = false) ∧
        ((recording_task_loop config w st chunks).2 ≠ [] → paused = true) := by
  intro chunks
  induction chunks with
  | nil =>
    intro st yi s
    exact ⟨false, s, rfl, rfl, rfl, by simp [readsUntilFirstYield], fun _ => rfl,
      fun h => absurd rfl h⟩
  | cons c rest ih =>
    intro st yi s
    cases hp : (chunkStep config w st c).2 with
    | none =>
      obtain ⟨paused, s', h1, h2, h3, h4, h5, h6⟩ := ih (chunkStep config w st c).1 yi
        { s with reads := s.reads + 1 }
      refine ⟨paused, s', ?_, h2, h3, ?_, ?_, ?_⟩
      · simp only [recording_worker_loop]
        rw [if_neg (by simp : ¬ (none : Option ℕ) = some s.reads)]
        simp only [hp]
        exact h1
      · rw [h4]
        simp only [readsUntilFirstYield, hp]
        omega
      · intro h
        rw [recording_task_loop_cons, hp] at h
        exact h5 (by simpa using h)
      · intro h
        rw [recording_task_loop_cons, hp] at h
        exact h6 (by simpa using h)
    | some u =>
      refine ⟨true, { s with reads := s.reads + 1 }, ?_, rfl, rfl, ?_, ?_, fun _ => rfl⟩
      · simp only [recording_worker_loop]
        rw [if_neg (by simp : ¬ (none : Option ℕ) = some s.reads)]
        simp only [hp]
        rfl
      · simp only [readsUntilFirstYield, hp]
      · intro h
        rw [recording_task_loop_cons, hp] at h
        simp at h

lemma worker_loop_queue_full (config : RecordingConfig) (w : ℕ) (m : ℕ) (hm : m ≠ 0) :
    ∀ (chunks : List (List ℤ)) (st : LoopState) (yi : ℕ) (s : WState),
      s.queueLen = m →
      (recording_task_loop config w st chunks).2 ≠ [] →
      ∃ s', recording_worker_loop config w m (fun _ => true) none chunks st yi s =
          (Except.error WErr.queueFull, s') ∧
        s'.closes = s.closes ∧ s'.published = s.published ∧ s'.queueLen = s.queueLen := by
  intro chunks
  induction chunks with
  | nil =>
    intro st yi s _ hne
    exact absurd rfl hne
  | cons c rest ih =>
    intro st yi s hq hne
    cases hp : (chunkStep config w st c).2 with
    | none =>
      have hne' : (recording_task_loop config w (chunkStep config w st c).1 rest).2 ≠ [] := by
        rw [recording_task_loop_cons, hp] at hne
        simpa using hne
      obtain ⟨s', h1, h2, h3, h4⟩ := ih (chunkStep config w st c).1 yi
        { s with reads := s.reads + 1 } hq hne'
      refine ⟨s', ?_, h2, h3, h4⟩
      simp only [recording_worker_loop]
      rw [if_neg (by simp : ¬ (none : Option ℕ) = some s.reads)]
      simp only [hp]
      exact h1
    | some u =>
      refine ⟨{ s with reads := s.reads + 1 }, ?_, rfl, rfl, rfl⟩
      simp only [recording_worker_loop]
      rw [if_neg (by simp : ¬ (none : Option ℕ) = some s.reads)]
      simp only [hp]
      rw [if_neg (by simp)]
      simp only [put_nowait]
      rw [if_neg (by
        simp only [not_or]
        refine ⟨hm, ?_⟩
        have : ({ s with reads := s.reads + 1 } : WState).queueLen = m := hq
        omega)]

lemma readsUntilFirstYield_eq_length (config : RecordingConfig) (w : ℕ) :
    ∀ (chunks : List (List ℤ)) (st : LoopState),
      (recording_task_loop config w st chunks).2 = [] →
      readsUntilFirstYield config w chunks st = chunks.length := by
  intro chunks
  induction chunks with
  | nil => intro st _; rfl
  | cons c rest ih =>
    intro st h
    rw [recording_task_loop_cons] at h
    cases hp : (chunkStep config w st c).2 with
    | none =>
      rw [hp] at h
      simp only [readsUntilFirstYield, hp]
      rw [ih _ (by simpa using h)]
      simp only [List.length_cons]
      omega
    | some u =>
      rw [hp] at h
      simp at h

/-- C8: if cancellation is delivered at the blocking device read (any read
the session actually reaches) or at the resume-gate wait, the session's
stream is closed exactly once before the cancellation propagates, and the
cancellation always propagates (is re-raised, never swallowed). The
unbounded queue and always-set gate keep the loop from exiting early for
unrelated reasons. -/
theorem C8_cancel_closes_once (config : RecordingConfig) (w : ℕ)
    (chunks : List (List ℤ)) (q0 n : ℕ) :
    (n < chunks.length →
      (recording_worker_pass config w 0 (fun _ => true) (some n) false chunks
          ⟨0, q0, [], 0⟩).1 = Except.error WErr.cancelled ∧
      (recording_worker_pass config w 0 (fun _ => true) (some n) false chunks
          ⟨0, q0, [], 0⟩).2.closes = 1) ∧
    ((recording_worker_pass config w 0 (fun _ => true) none true chunks
        ⟨0, q0, [], 0⟩).1 = Except.error WErr.cancelled ∧
      (recording_worker_pass config w 0 (fun _ => true) none true chunks
        ⟨0, q0, [], 0⟩).2.closes = 1) := by
  constructor
  · intro hn
    obtain ⟨s', h1, h2⟩ := worker_loop_cancel_at config w chunks n initLoopState 0
      ⟨0, q0, [], 0⟩ hn
    rw [show (⟨0, q0, [], 0⟩ : WState).reads + n = n from by simp] at h1
    constructor
    · simp only [recording_worker_pass, h1]
    · simp only [recording_worker_pass, h1]
      simpa using h2
  · obtain ⟨s', h1, h2⟩ := worker_loop_clean config w chunks initLoopState 0 ⟨0, q0, [], 0⟩
    constructor
    · simp only [recording_worker_pass, h1]
      rfl
    · simp only [recording_worker_pass, h1]
      have h2' : s'.closes = 0 := h2
      show s'.closes + 1 = 1
      omega

/-- Witness for C8: a one-chunk stream with cancellation at read 0, and
the same stream with cancellation at the gate wait; in both cases the
stream is closed exactly once and the cancellation propagates. -/
theorem C8_cancel_closes_once_witness :
    ((0 : ℕ) < ([quiet1] : List (List ℤ)).length ∧
      (recording_worker_pass smallConfig 2 0 (fun _ => true) (some 0) false [quiet1]
          ⟨0, 0, [], 0⟩).1 = Except.error WErr.cancelled ∧
      (recording_worker_pass smallConfig 2 0 (fun _ => true) (some 0) false [quiet1]
          ⟨0, 0, [], 0⟩).2.closes = 1) ∧
    ((recording_worker_pass smallConfig 2 0 (fun _ => true) none true [quiet1]
        ⟨0, 0, [], 0⟩).1 = Except.error WErr.cancelled ∧
      (recording_worker_pass smallConfig 2 0 (fun _ => true) none true [quiet1]
        ⟨0, 0, [], 0⟩).2.closes = 1) :=
  ⟨⟨by decide, (C8_cancel_closes_once smallConfig 2 [quiet1] 0 0).1 (by decide)⟩,
    (C8_cancel_closes_once smallConfig 2 [quiet1] 0 0).2⟩

/-- C10: with the resume gate cleared throughout, the worker samples the
gate only at utterance-finalization points: the session performs exactly
the reads up to and including the first yielding read (all of them if no
utterance ever finalizes — the worker keeps reading despite the cleared
gate), publishes nothing (the yielded utterance is discarded), closes the
stream once, and ends the session normally (pausing exactly when an
utterance finalized). -/
theorem C10_pause_only_at_yield (config : RecordingConfig) (w : ℕ) (maxsize : ℕ)
    (chunks : List (List ℤ)) (q0 : ℕ) :
    (∃ paused : Bool,
      (recording_worker_pass config w maxsize (fun _ => false) none false chunks
          ⟨0, q0, [], 0⟩).1 = Except.ok paused ∧
      ((recording_task_loop config w initLoopState chunks).2 = [] → paused = false) ∧
      ((recording_task_loop config w initLoopState chunks).2 ≠ [] → paused = true)) ∧
    (recording_worker_pass config w maxsize (fun _ => false) none false chunks
        ⟨0, q0, [], 0⟩).2.published = [] ∧
    (recording_worker_pass config w maxsize (fun _ => false) none false chunks
        ⟨0, q0, [], 0⟩).2.closes = 1 ∧
    (recording_worker_pass config w maxsize (fun _ => false) none false chunks
        ⟨0, q0, [], 0⟩).2.reads = readsUntilFirstYield config w chunks initLoopState ∧
    ((recording_task_loop config w initLoopState chunks).2 = [] →
      readsUntilFirstYield config w chunks initLoopState = chunks.length) := by
  obtain ⟨paused, s', h1, h2, h3, h4, h5, h6⟩ :=
    worker_loop_gate_false config w maxsize chunks initLoopState 0 ⟨0, q0, [], 0⟩
  refine ⟨⟨paused, ?_, h5, h6⟩, ?_, ?_, ?_, readsUntilFirstYield_eq_length config w chunks _⟩
  · simp only [recording_worker_pass, h1]
    rfl
  · simp only [recording_worker_pass, h1]
    show s'.published = []
    exact h2
  · simp only [recording_worker_pass, h1]
    have h3' : s'.closes = 0 := h3
    show s'.closes + 1 = 1
    omega
  · simp only [recording_worker_pass, h1]
    show s'.reads = readsUntilFirstYield config w chunks initLoopState
    have h4' : s'.reads = 0 + readsUntilFirstYield config w chunks initLoopState := h4
    rw [h4']
    omega

/-- Witness for C10: three quiet reads with the gate cleared — no
utterance finalizes, so all three reads are performed despite the cleared
gate, nothing is published, and the session does not pause. -/
theorem C10_pause_only_at_yield_witness :
    (recording_worker_pass smallConfig 2 0 (fun _ => false) none false
        [quiet1, quiet1, quiet1] ⟨0, 0, [], 0⟩).2.published = [] ∧
    (recording_worker_pass smallConfig 2 0 (fun _ => false) none false
        [quiet1, quiet1, quiet1] ⟨0, 0, [], 0⟩).2.reads = 3 ∧
    (recording_worker_pass smallConfig 2 0 (fun _ => false) none false
        [quiet1, quiet1, quiet1] ⟨0, 0, [], 0⟩).2.closes = 1 := by
  have h := C10_pause_only_at_yield smallConfig 2 0 [quiet1, quiet1, quiet1] 0
  refine ⟨h.2.1, ?_, h.2.2.1⟩
  rw [h.2.2.2.1, h.2.2.2.2 (by decide)]
  rfl

/-- C5 (counterexample): a publish failure terminates the worker. With a
queue of capacity 1 that is already full, the first completed utterance's
non-blocking publish raises; the exception is not the cancellation the
worker's handler catches, so it propagates out of the worker — the worker
does not continue running, the stream is never closed on that path
(`closes = 0`), and nothing is retried or logged by the worker. -/
theorem C5_counterexample :
    (recording_worker_pass smallConfigNoCap 2 1 (fun _ => true) none false
        [loud1, quiet1, quiet1] ⟨0, 1, [], 0⟩).1 = Except.error WErr.queueFull ∧
    (recording_worker_pass smallConfigNoCap 2 1 (fun _ => true) none false
        [loud1, quiet1, quiet1] ⟨0, 1, [], 0⟩).2.closes = 0 ∧
    (recording_worker_pass smallConfigNoCap 2 1 (fun _ => true) none false
        [loud1, quiet1, quiet1] ⟨0, 1, [], 0⟩).2.published = [] := by
  refine ⟨by decide, by decide, by decide⟩

/-- C5 (amended): if the output sink has bounded capacity and is full when
the segmentation loop completes an utterance (with the resume gate set),
the `put_nowait` failure propagates out of the worker: the worker
terminates with the queue-full exception, the failing utterance is neither
published nor retried or requeued, and the stream close after the loop is
skipped — the failure is fatal to the worker, not merely to that
utterance, and the worker emits no error event. -/
theorem C5_publish_failure (config : RecordingConfig) (w : ℕ) (chunks : List (List ℤ))
    (m : ℕ) (hm : m ≠ 0)
    (hy : (recording_task_loop config w initLoopState chunks).2 ≠ []) :
    (recording_worker_pass config w m (fun _ => true) none false chunks
        ⟨0, m, [], 0⟩).1 = Except.error WErr.queueFull ∧
    (recording_worker_pass config w m (fun _ => true) none false chunks
        ⟨0, m, [], 0⟩).2.closes = 0 ∧
    (recording_worker_pass config w m (fun _ => true) none false chunks
        ⟨0, m, [], 0⟩).2.published = [] := by
  obtain ⟨s', h1, h2, h3, h4⟩ := worker_loop_queue_full config w m hm chunks
    initLoopState 0 ⟨0, m, [], 0⟩ rfl hy
  refine ⟨?_, ?_, ?_⟩
  · simp only [recording_worker_pass, h1]
  · simp only [recording_worker_pass, h1]
    simpa using h2
  · simp only [recording_worker_pass, h1]
    simpa using h3

/-- Witness for C5 (amended) at the concrete full-queue run. -/
theorem C5_publish_failure_witness :
    ((1 : ℕ) ≠ 0 ∧
      (recording_task_loop smallConfigNoCap 2 initLoopState
        [loud1, quiet1, quiet1]).2 ≠ []) ∧
    (recording_worker_pass smallConfigNoCap 2 1 (fun _ => true) none false
        [loud1, quiet1, quiet1] ⟨0, 1, [], 0⟩).1 = Except.error WErr.queueFull ∧
    (recording_worker_pass smallConfigNoCap 2 1 (fun _ => true) none false
        [loud1, quiet1, quiet1] ⟨0, 1, [], 0⟩).2.closes = 0 :=
  ⟨⟨by decide, by decide⟩,
    (C5_publish_failure smallConfigNoCap 2 [loud1, quiet1, quiet1] 1 (by decide)
      (by decide)).1,
    (C5_publish_failure smallConfigNoCap 2 [loud1, quiet1, quiet1] 1 (by decide)
      (by decide)).2.1⟩

end VSpeech
